import Mathlib

/-!
Verification development for the `pyopensky` Impala client
(`src/pyopensky/impala.py`).

The Python source is shallowly embedded: strings are Lean `String`
(operated on through their underlying `List Char`), files are lists of
lines as produced by Python's `readlines()` (each line keeps its
trailing newline, the last one possibly not), and the cache directory
is an association list from hex digests to file contents.  External
libraries (pandas, gzip, paramiko) are modelled only as far as the
source relies on their documented behaviour, and each such modelling
decision is recorded in the corresponding doc comment.
-/

namespace PyOpenSky

/-! ## Character-list string helpers

All primitives recurse structurally over `String.data` so that every
definition is executable and kernel-reducible. -/

/-- True when the string contains the character `c`. -/
def strHasChar (s : String) (c : Char) : Bool :=
  s.data.contains c

/-- `re.search("\t", line)`: the line contains a tab character. -/
def containsTab (l : String) : Bool :=
  strHasChar l '\t'

/-- Python `str.startswith(p)`, via list prefixes. -/
def strStarts (s p : String) : Bool :=
  p.data.isPrefixOf s.data

/-- `re.match(r"\|.*\|", line)` (impala.py line 182): the line starts
with `|` and contains a second `|` later (`.` never matches the
newline, which in a `readlines()` line can only be the final
character, hence position is irrelevant). -/
def isBoxLine (l : String) : Bool :=
  strStarts l "|" && strHasChar (String.mk l.data.tail) '|'

/-- Core of `re.sub(" *<sep> *", ",", line)`: replace every maximal
`spaces sep spaces` group by a single comma, scanning left to right.
`skip` is true while trailing spaces of a match are being consumed;
`pend` counts spaces read but not yet committed to the output (a
pending space run is part of a match only if a separator follows). -/
def subSepGo (sep : Char) : Bool → Nat → List Char → List Char
  | _, pend, [] => List.replicate pend ' '
  | skip, pend, c :: cs =>
    if skip then
      if c = ' ' then subSepGo sep true 0 cs
      else if c = sep then ',' :: subSepGo sep true 0 cs
      else c :: subSepGo sep false 0 cs
    else
      if c = sep then ',' :: subSepGo sep true 0 cs
      else if c = ' ' then subSepGo sep false (pend + 1) cs
      else List.replicate pend ' ' ++ c :: subSepGo sep false 0 cs

/-- `re.sub(" *\t *", ",", line)` (impala.py line 179). -/
def subTab (l : String) : String :=
  String.mk (subSepGo '\t' false 0 l.data)

/-- `re.sub(r" *\| *", ",", line)` before slicing (impala.py line 187). -/
def subBar (l : String) : String :=
  String.mk (subSepGo '|' false 0 l.data)

/-- Python slice `s[1:-2]`: drop the first character and the last two. -/
def pySlice1m2 (l : List Char) : List Char :=
  (l.drop 1).take ((l.drop 1).length - 2)

/-- The chunk written to the `StringIO` buffer for a box-drawn line:
`re.sub(r" *\| *", ",", line)[1:-2]` (impala.py line 187). -/
def barChunk (l : String) : String :=
  String.mk (pySlice1m2 (subSepGo '|' false 0 l.data))

/-- Concatenation of a list of strings, as Python `"".join`. -/
def strJoin (ls : List String) : String :=
  String.mk (ls.foldr (fun s acc => s.data ++ acc) [])

/-- Python `str.split(',')` on the character level. -/
def splitCommaGo (acc : List Char) : List Char → List String
  | [] => [String.mk acc.reverse]
  | c :: cs =>
    if c = ',' then String.mk acc.reverse :: splitCommaGo [] cs
    else splitCommaGo (c :: acc) cs

/-- Split a string at commas (field separator of the normalized rows). -/
def splitComma (s : String) : List String :=
  splitCommaGo [] s.data

/-- Split at newlines, dropping the separators (used to model how the
`StringIO` buffer is consumed line by line by the CSV reader). -/
def splitNlGo (acc : List Char) : List Char → List String
  | [] => [String.mk acc.reverse]
  | c :: cs =>
    if c = '\n' then String.mk acc.reverse :: splitNlGo [] cs
    else splitNlGo (c :: acc) cs

/-- Python `readlines()` semantics: split after each newline, keeping
the newline on each line; a final segment without newline is kept, an
empty final segment is not. -/
def linesKeepGo (acc : List Char) : List Char → List String
  | [] => if acc.isEmpty then [] else [String.mk acc.reverse]
  | c :: cs =>
    if c = '\n' then String.mk (c :: acc).reverse :: linesKeepGo [] cs
    else linesKeepGo (c :: acc) cs

/-- `readlines()` of a whole file content. -/
def linesKeepEnds (s : String) : List String :=
  linesKeepGo [] s.data

/-- Python `str.replace("\n", " ")` (impala.py line 338); the pattern
is a single character so this is a character map. -/
def stripNl (s : String) : String :=
  String.mk (s.data.map (fun c => if c = '\n' then ' ' else c))

/-- `re.sub(", ", "\t", columns)` (impala.py line 362): every literal
comma-space pair becomes a tab. -/
def subCommaTabGo : List Char → List Char
  | [] => []
  | [c] => [c]
  | c :: c2 :: cs =>
    if c = ',' && c2 = ' ' then '\t' :: subCommaTabGo cs
    else c :: subCommaTabGo (c2 :: cs)

/-- The header line written in front of the transcript. -/
def subCommaTab (s : String) : String :=
  String.mk (subCommaTabGo s.data)

/-! ## The typed CSV parse (model of `pd.read_csv`)

`pd.read_csv` is an external library.  The model keeps exactly the
behaviour the source relies on: the first line is the header; a data
row with more fields than the header raises `ParserError` mentioning
`line <n>,`; a row with fewer fields is padded with missing values; a
generic numeric sniffer types each cell, except that the source forces
`dtype={"icao24": str, "callsign": str}` (impala.py line 200), which
keeps those two columns as text. -/

/-- A typed cell produced by the CSV reader. -/
inductive Cell where
  | text (s : String)
  | intVal (n : Int)
  | nan
  deriving DecidableEq, Repr

/-- All characters are decimal digits. -/
def allDigits (cs : List Char) : Bool :=
  cs.all (fun c => c.isDigit)

/-- Decimal value of a digit list. -/
def digitsVal (cs : List Char) : Nat :=
  cs.foldl (fun acc c => acc * 10 + (c.toNat - '0'.toNat)) 0

/-- Mantissa/exponent split of `d+ e d+` scientific-notation strings. -/
def sciSplit (cs : List Char) : Option (Nat × Nat) :=
  match cs.span (fun c => c.isDigit) with
  | (mant, rest) =>
    match rest with
    | 'e' :: expo =>
      if mant.isEmpty || expo.isEmpty || !(allDigits expo) then none
      else some (digitsVal mant, digitsVal expo)
    | _ => none

/-- The numeric sniffer of the CSV reader: integers and
digits-exponent-digits scientific notation become numbers (the source
comments: "otherwise pandas would parse 1234e5 as 123400000.0",
impala.py line 199), the empty field is a missing value, everything
else stays text.  Fractional literals are out of scope of the claims
and are kept as text. -/
def sniffCell (v : String) : Cell :=
  if v = "" then Cell.nan
  else if allDigits v.data then Cell.intVal (Int.ofNat (digitsVal v.data))
  else
    match sciSplit v.data with
    | some (m, e) => Cell.intVal (Int.ofNat (m * 10 ^ e))
    | none => Cell.text v

/-- One cell under `dtype={"icao24": str, "callsign": str}`: the two
identifier columns are forced to text, all others go through the
sniffer. -/
def parseCell (col v : String) : Cell :=
  if col = "icao24" || col = "callsign" then Cell.text v
  else sniffCell v

/-- One typed row: cells are typed positionally against the header;
rows shorter than the header are padded with missing values (modelled
as the empty field). -/
def mkRow : List String → List String → List Cell
  | [], _ => []
  | c :: cs, [] => parseCell c "" :: mkRow cs []
  | c :: cs, v :: vs => parseCell c v :: mkRow cs vs

/-- `pandas.errors.ParserError` data: the reported line number
(1-based, header = line 1) and the message text, shaped like the C
parser's "Error tokenizing data. C error: Expected k fields in line n,
saw m". -/
structure CsvErr where
  lineNo : Nat
  msg : String
  deriving DecidableEq, Repr

/-- Message of the `ParserError`. -/
def mkCsvErrMsg (k n m : Nat) : String :=
  "Error tokenizing data. C error: Expected " ++ toString k ++
    " fields in line " ++ toString n ++ ", saw " ++ toString m ++ "\n"

/-- Outcome of `pd.read_csv` on the normalized buffer. -/
inductive CsvResult where
  | emptyData
  | parseErr (e : CsvErr)
  | ok (cols : List String) (rows : List (List Cell))
  deriving DecidableEq, Repr

/-- Index (0-based) of the first data row with more fields than the
header. -/
def firstBadRow (width : Nat) : List String → Option (Nat × Nat)
  | [] => none
  | r :: rs =>
    let n := (splitComma r).length
    if width < n then some (0, n)
    else
      match firstBadRow width rs with
      | some (i, m) => some (i + 1, m)
      | none => none

/-- `pd.read_csv` on the buffer rows: an empty buffer raises
`EmptyDataError` (which is not a `ParserError`), an over-long data row
raises `ParserError` at file line `i + 2` (header is line 1), otherwise
every row is typed against the header. -/
def readCsv (rows : List String) : CsvResult :=
  match rows with
  | [] => CsvResult.emptyData
  | header :: dataRows =>
    let cols := splitComma header
    match firstBadRow cols.length dataRows with
    | some (i, m) =>
      CsvResult.parseErr ⟨i + 2, mkCsvErrMsg cols.length (i + 2) m⟩
    | none =>
      CsvResult.ok cols (dataRows.map (fun r => mkRow cols (splitComma r)))

/-- `df.drop_duplicates()`: keep the first occurrence of each row. -/
def dedupGo (seen : List (List Cell)) : List (List Cell) → List (List Cell)
  | [] => []
  | r :: rs =>
    if seen.contains r then dedupGo seen rs
    else r :: dedupGo (r :: seen) rs

/-- Duplicate removal starting from no seen rows. -/
def dedup (rows : List (List Cell)) : List (List Cell) :=
  dedupGo [] rows

/-! ## `Impala._read_cache` (impala.py lines 169-227) -/

/-- What `_read_cache` does to the backing cache file: leave it in
place, `unlink()` it (impala.py line 224), or `rename` it into the
temporary directory (impala.py lines 207-208). -/
inductive CacheAction where
  | keep
  | delete
  | quarantine
  deriving DecidableEq, Repr

/-- Result of `_read_cache`: the verbatim file text, a typed table, the
`None` return, a raised `ImpalaError`, the `TypeError` raised while the
`except ParserError` branch builds its message, or the uncaught
`EmptyDataError` that `pd.read_csv` raises on an all-blank buffer. -/
inductive ReadRes where
  | rawText (s : String)
  | table (cols : List String) (rows : List (List Cell))
  | noneRes
  | impalaError (msg : String)
  | typeError
  | uncaughtEmptyData
  deriving DecidableEq, Repr

/-- Result together with the effect on the backing cache entry. -/
structure ReadOutcome where
  res : ReadRes
  action : CacheAction
  deriving DecidableEq, Repr

/-- The line-classification loop of `_read_cache` (impala.py lines
175-190).  Returns `none` when the loop breaks (a box-drawn line that
contains a comma), otherwise the accumulated `StringIO` chunks and the
match count.  Both `if`s of the loop body can fire on the same line,
exactly as in the source. -/
def scanLoop : List String → List String → Nat → Option (List String × Nat)
  | [], chunks, count => some (chunks, count)
  | l :: rest, chunks, count =>
    let tabbed := containsTab l
    let chunks := if tabbed then chunks ++ [subTab l, "\n"] else chunks
    let count := if tabbed then count + 1 else count
    if isBoxLine l then
      if strHasChar l ',' then none
      else scanLoop rest (chunks ++ [barChunk l, "\n"]) (count + 1)
    else scanLoop rest chunks count

/-- Lines of the `StringIO` buffer as consumed by `pd.read_csv` with
its default `skip_blank_lines=True`: the concatenated chunks split at
newlines, blank lines dropped (tab-matched lines retain their own
trailing newline and are followed by an extra `s.write("\n")`, so the
buffer contains blank separator lines). -/
def csvRows (chunks : List String) : List String :=
  (splitNlGo [] (strJoin chunks).data).filter (fun r => r ≠ "")

/-- A Python runtime value as far as the `+` operator is concerned:
either a `str` or an exception object. -/
inductive PyVal where
  | pstr (s : String)
  | pexc (e : String)
  deriving DecidableEq, Repr

/-- Python binary `+` on such values: `str + str` concatenates; any
operand that is an exception object supports no `+` with a string, so
the interpreter raises `TypeError`. -/
def pyAdd : PyVal → PyVal → Except String PyVal
  | PyVal.pstr a, PyVal.pstr b => Except.ok (PyVal.pstr (a ++ b))
  | _, _ => Except.error "TypeError: unsupported operand types for +"

/-- Group 1 of the source regex `line (\d)+,` (impala.py line 202): the
repetition is outside the capture group, so for a line number `n` the
captured text is the last digit of `n`.  Modelled directly on the known
shape of the `ParserError` message, which contains exactly one
`line <n>,` occurrence. -/
def capturedLineDigit (n : Nat) : Nat :=
  n % 10

/-- Python list indexing with negative-index wrap-around, as used by
`fh.readlines()[line_nb - 1]` (impala.py line 205); a captured digit 0
gives index -1, the last line. -/
def pyIdx (xs : List String) (i : Int) : String :=
  if 0 ≤ i then xs.getD i.toNat ""
  else xs.getD (xs.length - (-i).toNat) ""

/-- The `except ParserError` branch (impala.py lines 201-212): fetch
the line text captured from the error message, `rename` the cache file
into the temporary directory, then raise
`ImpalaError(Impala._parseErrorMsg.format(path=new_path) + (error + "\n" + content))`.
`error` is still the `ParserError` object, so the inner `+` is applied
to an exception and a `str`: evaluation stops with `TypeError` (after
the rename, which already happened). -/
def parserExceptBranch (e : CsvErr) (fileLines : List String) : ReadOutcome :=
  let lineNb : Int := Int.ofNat (capturedLineDigit e.lineNo)
  let content := pyIdx fileLines (lineNb - 1)
  match pyAdd (PyVal.pexc e.msg) (PyVal.pstr "\n") with
  | Except.error _ => ⟨ReadRes.typeError, CacheAction.quarantine⟩
  | Except.ok v =>
    match pyAdd v (PyVal.pstr content) with
    | Except.error _ => ⟨ReadRes.typeError, CacheAction.quarantine⟩
    | Except.ok v2 =>
      match pyAdd (PyVal.pstr "parse error at ") v2 with
      | Except.error _ => ⟨ReadRes.typeError, CacheAction.quarantine⟩
      | Except.ok (PyVal.pstr m) =>
        ⟨ReadRes.impalaError m, CacheAction.quarantine⟩
      | Except.ok _ => ⟨ReadRes.typeError, CacheAction.quarantine⟩

/-- The final error-banner scan (impala.py lines 217-227): if any file
line starts with `ERROR:`, the message is every line but the last, the
cache file is unlinked and `ImpalaError` is raised; otherwise the
function returns `None`. -/
def errorScan (fileLines : List String) : ReadOutcome :=
  if fileLines.any (fun l => strStarts l "ERROR:") then
    ⟨ReadRes.impalaError (strJoin fileLines.dropLast), CacheAction.delete⟩
  else ⟨ReadRes.noneRes, CacheAction.keep⟩

/-- `Impala._read_cache` on the `readlines()` of the cache file. -/
def readCache (fileLines : List String) : ReadOutcome :=
  match scanLoop fileLines [] 0 with
  | none => ⟨ReadRes.rawText (strJoin fileLines), CacheAction.keep⟩
  | some (chunks, count) =>
    if count > 0 then
      match readCsv (csvRows chunks) with
      | CsvResult.emptyData => ⟨ReadRes.uncaughtEmptyData, CacheAction.keep⟩
      | CsvResult.parseErr e => parserExceptBranch e fileLines
      | CsvResult.ok cols rows =>
        if rows.length > 0 then ⟨ReadRes.table cols (dedup rows), CacheAction.keep⟩
        else errorScan fileLines
    else errorScan fileLines

/-! ## `Impala._impala` (impala.py lines 317-367) -/

/-- The cache directory: digest of the request text mapped to the full
text of the cache file. -/
def Cache := List (String × String)

/-- First binding for a key. -/
def alookup (k : String) : List (String × String) → Option String
  | [] => none
  | (k2, v) :: m => if k2 = k then some v else alookup k m

/-- Remove every binding for a key (`Path.unlink`). -/
def aerase (k : String) : List (String × String) → List (String × String)
  | [] => []
  | (k2, v) :: m => if k2 = k then aerase k m else (k2, v) :: aerase k m

/-- Create or overwrite the file for a key. -/
def ainsert (k v : String) (m : List (String × String)) : List (String × String) :=
  (k, v) :: aerase k m

/-- The full cache-file text written by `_impala` (impala.py lines
356-364): the column header with `", "` turned into tabs, a newline,
then the accumulated shell transcript.  `columns` is optional because
of the `if columns is not None` guard. -/
def writeContent (columns : Option String) (total : String) : String :=
  match columns with
  | some c => subCommaTab c ++ "\n" ++ total
  | none => total

/-- State threaded through `_impala` calls: the cache directory and
the number of remote shell executions so far. -/
structure ImpalaState where
  cache : List (String × String)
  execCount : Nat
  deriving DecidableEq, Repr

/-- One `Impala._impala` call.  `hash` models
`hashlib.md5(...).hexdigest()` (a deterministic function of the
request text) and `remote` models the prompt-framed shell round trip
returning the transcript `total`; both are parameters because they are
external to the source logic being verified.  Mirrors the source
order: digest of the unmodified request, forced invalidation when
`cached` is false, cache-miss execution with newline stripping, write
of header plus transcript, then `_read_cache` with its effect applied
to the cache directory. -/
def impalaCall (hash : String → String) (remote : String → String)
    (request : String) (columns : Option String) (cached : Bool)
    (st : ImpalaState) : ImpalaState × ReadRes :=
  let digest := hash request
  let st1 :=
    if (alookup digest st.cache).isSome && !cached then
      { st with cache := aerase digest st.cache }
    else st
  let st2 :=
    if (alookup digest st1.cache).isSome then st1
    else
      let total := remote (stripNl request)
      { cache := ainsert digest (writeContent columns total) st1.cache,
        execCount := st1.execCount + 1 }
  let fileText := (alookup digest st2.cache).getD ""
  let out := readCache (linesKeepEnds fileText)
  let st3 :=
    match out.action with
    | CacheAction.keep => st2
    | CacheAction.delete => { st2 with cache := aerase digest st2.cache }
    | CacheAction.quarantine => { st2 with cache := aerase digest st2.cache }
  (st3, out.res)

/-! ## The cache-miss write as filesystem events (impala.py lines 344-365)

The transcript is accumulated in the in-memory string `total` until
the idle prompt reappears; only then is the cache file opened — but it
is opened directly at its final path (`cachename.open("w")`, or
`gzip.open(cachename, "wt")`), not at a temporary path.  The write is
therefore the event sequence below; a crash can stop it after any
event. -/

/-- An atomic filesystem event of the write phase. -/
inductive WriteEvent where
  | openTrunc
  | append (s : String)
  deriving DecidableEq, Repr

/-- The events performed for one cache-miss write, in source order:
open-and-truncate at the final path, then the header (when columns are
given), its newline, then the transcript. -/
def impalaWriteEvents (columns : Option String) (total : String) : List WriteEvent :=
  match columns with
  | some c => [WriteEvent.openTrunc, WriteEvent.append (subCommaTab c),
      WriteEvent.append "\n", WriteEvent.append total]
  | none => [WriteEvent.openTrunc, WriteEvent.append total]

/-- Effect of one event on the cache directory, for the file `key`. -/
def applyWriteEvent (key : String) (cache : List (String × String)) :
    WriteEvent → List (String × String)
  | WriteEvent.openTrunc => ainsert key "" cache
  | WriteEvent.append s => ainsert key ((alookup key cache).getD "" ++ s) cache

/-- The cache directory after a prefix of the write events. -/
def runWriteEvents (key : String) (cache : List (String × String))
    (evs : List WriteEvent) : List (String × String) :=
  evs.foldl (applyWriteEvent key) cache

/-! ## `open_cache_file` at the byte level (impala.py lines 38-53)

Bytes are `Nat`s.  A text file is written as the UTF-8 encoding of its
characters; gzip compression and decompression are parameters (the
`gzip` module is external), constrained in the theorems only by its
documented contract: decompression inverts compression, and compressed
output begins with the 3-byte magic header `1f 8b 08` that the source
tests for. -/

/-- The gzip magic prefix checked by `open_cache_file`
(`bytes_header.read(3) == b"\x1f\x8b\x08"`). -/
def gzipMagic : List Nat := [31, 139, 8]

/-- UTF-8 encoding of one code point. -/
def utf8Char (c : Nat) : List Nat :=
  if c < 128 then [c]
  else if c < 2048 then [192 + c / 64, 128 + c % 64]
  else if c < 65536 then [224 + c / 4096, 128 + (c / 64) % 64, 128 + c % 64]
  else [240 + c / 262144, 128 + (c / 4096) % 64, 128 + (c / 64) % 64, 128 + c % 64]

/-- UTF-8 encoding of a code-point sequence. -/
def utf8Encode (cs : List Nat) : List Nat :=
  cs.foldr (fun c acc => utf8Char c ++ acc) []

/-- The bytes stored for a transcript text: gzip-compressed when
`compress` is set, plain UTF-8 otherwise (impala.py lines 356-359).
The stored name carries no marker of the choice. -/
def cacheWriteBytes (gz : List Nat → List Nat) (text : List Nat)
    (compress : Bool) : List Nat :=
  if compress then gz (utf8Encode text) else utf8Encode text

/-- `open_cache_file`: read the first 3 bytes; on the gzip magic,
decompress, otherwise return the bytes as they are.  The decision
depends on the stored bytes only, never on the file name. -/
def openCacheFileBytes (gunzip : List Nat → List Nat)
    (stored : List Nat) : List Nat :=
  if stored.take 3 = gzipMagic then gunzip stored else stored

/-! ## `Impala._connect` credentials guard (impala.py lines 284-286) -/

/-- What `_connect` does before any byte is exchanged: raise
`RuntimeError("This method requires authentication.")`, or proceed to
`paramiko.SSHClient().connect(...)` with the stored credentials. -/
inductive ConnectOutcome where
  | authRequired
  | transportAttempt (username password : Option String)
  deriving DecidableEq, Repr

/-- Python `x == ""` where `x` is `None` or a `str`: `None == ""` is
`False`; configuration values are `None` when unset. -/
def pyEqEmptyStr : Option String → Bool
  | some v => v = ""
  | none => false

/-- The head of `_connect`: the guard
`if self.username == "" or self.password == "":` raises before any
transport activity; every other configuration reaches the
`paramiko` connect call. -/
def connectModel (username password : Option String) : ConnectOutcome :=
  if pyEqEmptyStr username || pyEqEmptyStr password then
    ConnectOutcome.authRequired
  else ConnectOutcome.transportAttempt username password

/-! ## Default stop bound (impala.py lines 404-409, 536-541, 745-750,
1186-1191)

All four query entry points compute
`stop_ts = to_datetime(stop) if stop is not None else start_ts + pd.Timedelta("1d")`.
`to_datetime` (from `pyopensky.time`) is an external parameter, and
timestamps are modelled as integer seconds, with `pd.Timedelta("1d")`
equal to 86400 seconds. -/

/-- `Impala.request` stop bound (impala.py lines 404-409). -/
def requestStopTs {α : Type} (toDatetime : α → Int) (start : α)
    (stop : Option α) : Int :=
  match stop with
  | some s => toDatetime s
  | none => toDatetime start + 86400

/-- `Impala.flightlist` stop bound (impala.py lines 536-541). -/
def flightlistStopTs {α : Type} (toDatetime : α → Int) (start : α)
    (stop : Option α) : Int :=
  match stop with
  | some s => toDatetime s
  | none => toDatetime start + 86400

/-- `Impala.history` stop bound (impala.py lines 745-750). -/
def historyStopTs {α : Type} (toDatetime : α → Int) (start : α)
    (stop : Option α) : Int :=
  match stop with
  | some s => toDatetime s
  | none => toDatetime start + 86400

/-- `Impala.rawdata` stop bound (impala.py lines 1186-1191). -/
def rawdataStopTs {α : Type} (toDatetime : α → Int) (start : α)
    (stop : Option α) : Int :=
  match stop with
  | some s => toDatetime s
  | none => toDatetime start + 86400

/-! ## Helper lemmas -/

/-- Two strings with the same character data are equal. -/
theorem strDataEq {a b : String} (h : a.data = b.data) : a = b := by
  cases a; cases b; exact congrArg String.mk h

/-- Rebuilding a string from its data is the identity. -/
theorem strMkData (s : String) : String.mk s.data = s := by
  cases s; rfl

/-- When no line matches either data-row pattern, the classification
loop ends without writing anything. -/
theorem scanLoop_no_match (ls : List String)
    (h : ∀ l ∈ ls, containsTab l = false ∧ isBoxLine l = false) :
    ∀ chunks count, scanLoop ls chunks count = some (chunks, count) := by
  induction ls with
  | nil => intro chunks count; rfl
  | cons a rest ih =>
    intro chunks count
    have ha := h a (List.mem_cons_self a rest)
    have hrest : ∀ l ∈ rest, containsTab l = false ∧ isBoxLine l = false :=
      fun l hl => h l (List.mem_cons_of_mem a hl)
    simp only [scanLoop, ha.1, ha.2, if_neg, Bool.false_eq_true, if_false]
    exact ih hrest chunks count

/-- A box-drawn line containing a comma makes the classification loop
break, whatever was accumulated before. -/
theorem scanLoop_box_comma (ls : List String)
    (h : ∃ l ∈ ls, isBoxLine l = true ∧ strHasChar l ',' = true) :
    ∀ chunks count, scanLoop ls chunks count = none := by
  induction ls with
  | nil => rcases h with ⟨l, hl, _⟩; cases hl
  | cons a rest ih =>
    intro chunks count
    by_cases hb : isBoxLine a = true
    · by_cases hc : strHasChar a ',' = true
      · simp only [scanLoop, hb, hc, if_true]
      · rcases h with ⟨l, hl, h1, h2⟩
        rcases List.mem_cons.mp hl with rfl | hmem
        · exact absurd h2 hc
        · simp only [scanLoop, hb, hc, if_true, Bool.false_eq_true, if_false]
          exact ih ⟨l, hmem, h1, h2⟩ _ _
    · rcases h with ⟨l, hl, h1, h2⟩
      rcases List.mem_cons.mp hl with rfl | hmem
      · exact absurd h1 hb
      · simp only [scanLoop, hb, Bool.false_eq_true, if_false]
        exact ih ⟨l, hmem, h1, h2⟩ _ _

/-- Concatenating the `readlines()` of a text gives back the text
(auxiliary form over the scanning accumulator). -/
theorem linesKeepGo_foldr (cs : List Char) :
    ∀ acc, (linesKeepGo acc cs).foldr (fun s a => s.data ++ a) []
      = acc.reverse ++ cs := by
  induction cs with
  | nil =>
    intro acc
    by_cases h : acc.isEmpty
    · simp [linesKeepGo, h, List.isEmpty_iff.mp h]
    · simp [linesKeepGo, h]
  | cons c cs ih =>
    intro acc
    by_cases h : c = '\n'
    · simp only [linesKeepGo, h, if_true, List.foldr_cons, ih []]
      simp
    · simp only [linesKeepGo, h, if_false, ih (c :: acc)]
      simp

/-- `"".join(fh.readlines())` returns the file content verbatim. -/
theorem strJoin_linesKeepEnds (s : String) :
    strJoin (linesKeepEnds s) = s := by
  unfold strJoin linesKeepEnds
  rw [linesKeepGo_foldr s.data []]
  simp [strMkData s]

/-- Looking up the key just written finds the written content. -/
theorem alookup_ainsert (k v : String) (m : List (String × String)) :
    alookup k (ainsert k v m) = some v := by
  simp [ainsert, alookup]

/-- Appending the empty string on the left is the identity. -/
theorem strEmptyAppend (s : String) : "" ++ s = s := by
  apply strDataEq; simp

/-! ## Claim theorems -/

/-- C9: in `request`, `flightlist`, `history` and `rawdata`, when the
optional stop bound is omitted the effective stop bound is exactly the
parsed start bound plus one day (86400 seconds). -/
theorem defaultStop_is_start_plus_oneDay {α : Type} (toDatetime : α → Int)
    (start : α) :
    requestStopTs toDatetime start none = toDatetime start + 86400
    ∧ flightlistStopTs toDatetime start none = toDatetime start + 86400
    ∧ historyStopTs toDatetime start none = toDatetime start + 86400
    ∧ rawdataStopTs toDatetime start none = toDatetime start + 86400 :=
  ⟨rfl, rfl, rfl, rfl⟩

/-- C7 counterexample: with both credentials unset (`None`), the guard
`self.username == "" or self.password == ""` does not fire (Python
`None == ""` is `False`), so `_connect` proceeds to the transport
instead of failing with a configuration error. -/
theorem connect_unset_credentials_reach_transport :
    connectModel none none = ConnectOutcome.transportAttempt none none
    ∧ connectModel none none ≠ ConnectOutcome.authRequired := by
  decide

/-- C7 amended: `_connect` fails with the authentication-required
error, before any transport activity, exactly when a credential is
present as the empty string. -/
theorem connect_emptyString_credentials_fail (u p : Option String)
    (h : u = some "" ∨ p = some "") :
    connectModel u p = ConnectOutcome.authRequired := by
  rcases h with rfl | rfl <;> simp [connectModel, pyEqEmptyStr]

/-- Witness for the amended C7 theorem at a concrete configuration. -/
theorem connect_emptyString_credentials_fail_witness :
    connectModel (some "") none = ConnectOutcome.authRequired :=
  connect_emptyString_credentials_fail (some "") none (Or.inl rfl)

/-- C2 (failing input): a 10-line cached transcript whose line 5 is a
malformed row (three fields against a two-field header).  The backing
file is renamed into the temporary directory, but the `ImpalaError`
message `_parseErrorMsg.format(...) + (error + "\n" + content)` adds
the `ParserError` object itself to a `str`, so the call fails with
`TypeError` and never raises the documented `ParseError` with path,
line number, offending text and detail. -/
theorem malformed_row_raises_typeError_after_quarantine :
    readCache ["a\tb\n", "1\t2\n", "3\t4\n", "4\t5\n", "5\t6\t7\n",
        "6\t7\n", "7\t8\n", "8\t9\n", "9\t0\n", "[hadoop-1:21000] > "]
      = ⟨ReadRes.typeError, CacheAction.quarantine⟩ := by
  decide

/-- C1 counterexample: during the cache-miss write for columns
`"a, b"` and transcript `"1\t2\n"`, stopping after the first two
filesystem events (open-truncate at the final path, then the header
write) leaves the key visible with only the header — a truncated entry
visible under its key, contradicting atomic temp-write-then-publish. -/
theorem write_crash_truncated_entry_visible :
    alookup "k" (runWriteEvents "k" []
        ((impalaWriteEvents (some "a, b") "1\t2\n").take 2)) = some "a\tb"
    ∧ ("a\tb" : String) ≠ writeContent (some "a, b") "1\t2\n" := by
  decide

/-- C1 amended: the transcript is received in full into memory before
any file operation, so no entry exists before the write events begin;
after all events the entry holds the complete header-plus-transcript;
but the file is written directly at its final path, so a crash at an
intermediate event can leave a visible entry that is a proper prefix
of the complete content. -/
theorem write_crash_states_characterized (columnText total key : String)
    (cache : List (String × String)) (hfresh : alookup key cache = none)
    (k : Nat) (hk : k ≤ 4) :
    runWriteEvents key cache ((impalaWriteEvents (some columnText) total).take 0)
      = cache
    ∧ (∀ c, alookup key (runWriteEvents key cache
        ((impalaWriteEvents (some columnText) total).take k)) = some c →
        ∃ rest, c ++ rest = writeContent (some columnText) total)
    ∧ alookup key (runWriteEvents key cache (impalaWriteEvents (some columnText) total))
        = some (writeContent (some columnText) total) := by
  refine ⟨rfl, ?_, ?_⟩
  · intro c hc
    interval_cases k
    · rw [List.take_zero] at hc
      simp only [runWriteEvents, List.foldl_nil] at hc
      rw [hfresh] at hc; cases hc
    · simp only [impalaWriteEvents, runWriteEvents, List.take_succ_cons,
        List.take_zero, List.foldl_cons, List.foldl_nil, applyWriteEvent,
        alookup_ainsert] at hc
      cases hc
      exact ⟨writeContent (some columnText) total,
        strEmptyAppend _⟩
    · simp only [impalaWriteEvents, runWriteEvents, List.take_succ_cons,
        List.take_zero, List.foldl_cons, List.foldl_nil, applyWriteEvent,
        alookup_ainsert, Option.getD_some] at hc
      cases hc
      refine ⟨"\n" ++ total, ?_⟩
      rw [strEmptyAppend, ← String.append_assoc]
      rfl
    · simp only [impalaWriteEvents, runWriteEvents, List.take_succ_cons,
        List.take_zero, List.foldl_cons, List.foldl_nil, applyWriteEvent,
        alookup_ainsert, Option.getD_some] at hc
      cases hc
      refine ⟨total, ?_⟩
      rw [strEmptyAppend]
      rfl
    · simp only [impalaWriteEvents, runWriteEvents, List.take_succ_cons,
        List.take_zero, List.foldl_cons, List.foldl_nil, applyWriteEvent,
        alookup_ainsert, Option.getD_some] at hc
      cases hc
      refine ⟨"", ?_⟩
      rw [strEmptyAppend, String.append_assoc]
      simp [writeContent]
  · simp only [impalaWriteEvents, runWriteEvents, List.foldl_cons,
      List.foldl_nil, applyWriteEvent, alookup_ainsert, Option.getD_some]
    rw [strEmptyAppend]
    rfl

/-- Witness for the amended C1 theorem at a concrete crash point. -/
theorem write_crash_states_characterized_witness :
    runWriteEvents "k" [] ((impalaWriteEvents (some "a, b") "1\t2\n").take 0)
      = []
    ∧ (∀ c, alookup "k" (runWriteEvents "k" []
        ((impalaWriteEvents (some "a, b") "1\t2\n").take 2)) = some c →
        ∃ rest, c ++ rest = writeContent (some "a, b") "1\t2\n")
    ∧ alookup "k" (runWriteEvents "k" [] (impalaWriteEvents (some "a, b") "1\t2\n"))
        = some (writeContent (some "a, b") "1\t2\n") :=
  write_crash_states_characterized "a, b" "1\t2\n" "k" [] rfl 2 (by decide)

/-- C3: on a transcript with no data rows in which some line begins
with the literal marker `ERROR:`, `_read_cache` deletes the backing
cache entry and raises `ImpalaError` whose message is every line of
the file up to but excluding the final line. -/
theorem errorBanner_deletes_and_raises (fileLines : List String)
    (hnodata : ∀ l ∈ fileLines, containsTab l = false ∧ isBoxLine l = false)
    (hbanner : ∃ l ∈ fileLines, strStarts l "ERROR:" = true) :
    readCache fileLines =
      ⟨ReadRes.impalaError (strJoin fileLines.dropLast), CacheAction.delete⟩ := by
  unfold readCache
  rw [scanLoop_no_match fileLines hnodata [] 0]
  simp only [gt_iff_lt, Nat.lt_irrefl, if_false, errorScan]
  rw [if_pos]
  rcases hbanner with ⟨l, hl, hstart⟩
  exact List.any_eq_true.mpr ⟨l, hl, hstart⟩

/-- Witness for C3 at the transcript of the spec's example. -/
theorem errorBanner_deletes_and_raises_witness :
    readCache ["ERROR: disk full\n", "[hadoop-1:21000] > "] =
      ⟨ReadRes.impalaError (strJoin (["ERROR: disk full\n",
        "[hadoop-1:21000] > "] : List String).dropLast), CacheAction.delete⟩ :=
  errorBanner_deletes_and_raises
    ["ERROR: disk full\n", "[hadoop-1:21000] > "]
    (by decide)
    ⟨"ERROR: disk full\n", by decide⟩

/-- C6: whenever some box-drawn line of the transcript also contains a
literal comma, `_read_cache` abandons structured parsing and returns
the whole file text verbatim, never a typed table. -/
theorem boxLine_with_comma_returns_rawText (fileLines : List String)
    (hline : ∃ l ∈ fileLines, isBoxLine l = true ∧ strHasChar l ',' = true) :
    readCache fileLines = ⟨ReadRes.rawText (strJoin fileLines), CacheAction.keep⟩ := by
  unfold readCache
  rw [scanLoop_box_comma fileLines hline [] 0]

/-- Witness for C6 at a concrete schema-description-style transcript. -/
theorem boxLine_with_comma_returns_rawText_witness :
    readCache ["| name, type |\n", "[hadoop-1:21000] > "] =
      ⟨ReadRes.rawText (strJoin ["| name, type |\n", "[hadoop-1:21000] > "]),
        CacheAction.keep⟩ :=
  boxLine_with_comma_returns_rawText
    ["| name, type |\n", "[hadoop-1:21000] > "]
    ⟨"| name, type |\n", by decide⟩

/-- The UTF-8 encoding of a code point starts with the code point
itself (ASCII case) or with a leading byte of value at least 192. -/
theorem utf8Char_shape (c : Nat) :
    ∃ x bs, utf8Char c = x :: bs ∧ ((x = c ∧ c < 128) ∨ 192 ≤ x) := by
  unfold utf8Char
  split
  · rename_i h; exact ⟨c, [], rfl, Or.inl ⟨rfl, h⟩⟩
  split
  · exact ⟨_, _, rfl, Or.inr (by omega)⟩
  split
  · exact ⟨_, _, rfl, Or.inr (by omega)⟩
  · exact ⟨_, _, rfl, Or.inr (by omega)⟩

/-- No UTF-8 byte stream continues with 139 at its head: 139 is a
continuation byte, never the first byte of a code point. -/
theorem utf8Encode_no_139_head (rest : List Nat) (l : List Nat) :
    (utf8Encode rest).take 2 ≠ 139 :: l := by
  intro h
  cases rest with
  | nil => simp [utf8Encode] at h
  | cons c2 r2 =>
    rcases utf8Char_shape c2 with ⟨y, bs, hchar, hy⟩
    have he : utf8Encode (c2 :: r2) = utf8Char c2 ++ utf8Encode r2 := rfl
    rw [he, hchar] at h
    simp only [List.cons_append, List.take] at h
    have hyv : y = 139 := by injection h
    rcases hy with ⟨rfl, hlt⟩ | hge <;> omega

/-- The UTF-8 encoding of text never begins with the gzip magic
bytes: a leading byte 31 forces an ASCII first character, after which
the next byte is again a leading byte, never the continuation value
139. -/
theorem utf8Encode_no_gzipMagic (cs : List Nat) :
    (utf8Encode cs).take 3 ≠ gzipMagic := by
  intro h
  cases cs with
  | nil => simp [utf8Encode, gzipMagic] at h
  | cons c rest =>
    rcases utf8Char_shape c with ⟨x, bs, hchar, hx⟩
    have he : utf8Encode (c :: rest) = utf8Char c ++ utf8Encode rest := rfl
    rw [he, hchar] at h
    simp only [List.cons_append, List.take, gzipMagic] at h
    have hxv : x = 31 := by injection h
    have hc : c = 31 := by
      rcases hx with ⟨rfl, _⟩ | hge <;> omega
    have hbs : bs = [] := by
      have : utf8Char c = [c] := by unfold utf8Char; rw [if_pos (by omega)]
      rw [this] at hchar
      injection hchar with h1 h2
      exact h2.symm
    subst hbs
    have htail : (utf8Encode rest).take 2 = 139 :: [8] := by
      injection h
    exact utf8Encode_no_139_head rest [8] htail

/-- C5: for every transcript and both storage modes, writing then
reading through `open_cache_file` returns exactly the written text,
and the decompression decision is taken solely from the 3-byte gzip
magic prefix of the stored bytes (plain UTF-8 text can never begin
with those bytes); the model takes no file name at all.  `gz` and
`gunzip` are any pair satisfying the gzip contract on this input:
decompression inverts compression and compressed output starts with
the magic header. -/
theorem cacheFile_roundTrip (gz gunzip : List Nat → List Nat)
    (t : List Nat) (compress : Bool)
    (hinv : gunzip (gz (utf8Encode t)) = utf8Encode t)
    (hmagic : (gz (utf8Encode t)).take 3 = gzipMagic) :
    openCacheFileBytes gunzip (cacheWriteBytes gz t compress) = utf8Encode t := by
  cases compress
  · simp only [cacheWriteBytes, Bool.false_eq_true, if_false]
    unfold openCacheFileBytes
    rw [if_neg (utf8Encode_no_gzipMagic t)]
  · simp only [cacheWriteBytes, if_true]
    unfold openCacheFileBytes
    rw [if_pos hmagic, hinv]

/-- Witness for C5 with a concrete gzip pair and the text "hi", in
both storage modes. -/
theorem cacheFile_roundTrip_witness :
    openCacheFileBytes (fun bs => bs.drop 3)
        (cacheWriteBytes (fun bs => gzipMagic ++ bs) [104, 105] true)
      = utf8Encode [104, 105]
    ∧ openCacheFileBytes (fun bs => bs.drop 3)
        (cacheWriteBytes (fun bs => gzipMagic ++ bs) [104, 105] false)
      = utf8Encode [104, 105] :=
  ⟨cacheFile_roundTrip (fun bs => gzipMagic ++ bs) (fun bs => bs.drop 3)
      [104, 105] true (by decide) (by decide),
    cacheFile_roundTrip (fun bs => gzipMagic ++ bs) (fun bs => bs.drop 3)
      [104, 105] false (by decide) (by decide)⟩

/-- C4: with caching enabled and the key initially absent, running the
same fully-substituted request twice performs exactly one remote
execution — the first call increments the execution count, the second
leaves it unchanged because the deterministic digest of the identical
text finds the existing entry — and both calls return identical
results.  The hypothesis `hkeep` states that parsing the written
transcript leaves the entry in place (a transcript whose parse
deletes or quarantines the entry makes the call raise instead of
returning a result). -/
theorem identical_request_twice_one_execution (hash : String → String)
    (remote : String → String) (request : String) (columns : Option String)
    (st : ImpalaState)
    (hfresh : alookup (hash request) st.cache = none)
    (hkeep : (readCache (linesKeepEnds (writeContent columns
        (remote (stripNl request))))).action = CacheAction.keep) :
    (impalaCall hash remote request columns true st).1.execCount
      = st.execCount + 1
    ∧ (impalaCall hash remote request columns true
        ((impalaCall hash remote request columns true st).1)).1.execCount
      = (impalaCall hash remote request columns true st).1.execCount
    ∧ (impalaCall hash remote request columns true
        ((impalaCall hash remote request columns true st).1)).2
      = (impalaCall hash remote request columns true st).2 := by
  have hcall1 : impalaCall hash remote request columns true st
      = ({ cache := ainsert (hash request)
              (writeContent columns (remote (stripNl request))) st.cache,
           execCount := st.execCount + 1 },
         (readCache (linesKeepEnds (writeContent columns
            (remote (stripNl request))))).res) := by
    unfold impalaCall
    simp [hfresh, alookup_ainsert, hkeep]
  have hcall2 : impalaCall hash remote request columns true
        ({ cache := ainsert (hash request)
              (writeContent columns (remote (stripNl request))) st.cache,
           execCount := st.execCount + 1 } : ImpalaState)
      = ({ cache := ainsert (hash request)
              (writeContent columns (remote (stripNl request))) st.cache,
           execCount := st.execCount + 1 },
         (readCache (linesKeepEnds (writeContent columns
            (remote (stripNl request))))).res) := by
    unfold impalaCall
    simp [alookup_ainsert, hkeep]
  simp [hcall1, hcall2]

/-- Witness for C4 at a concrete request whose transcript parses into
a one-row table. -/
theorem identical_request_twice_one_execution_witness :
    (impalaCall id (fun _ => "1\t2\n[p] > ") "select 1" (some "x, y") true
        ⟨[], 0⟩).1.execCount = 0 + 1
    ∧ (impalaCall id (fun _ => "1\t2\n[p] > ") "select 1" (some "x, y") true
        ((impalaCall id (fun _ => "1\t2\n[p] > ") "select 1" (some "x, y") true
          ⟨[], 0⟩).1)).1.execCount
      = (impalaCall id (fun _ => "1\t2\n[p] > ") "select 1" (some "x, y") true
          ⟨[], 0⟩).1.execCount
    ∧ (impalaCall id (fun _ => "1\t2\n[p] > ") "select 1" (some "x, y") true
        ((impalaCall id (fun _ => "1\t2\n[p] > ") "select 1" (some "x, y") true
          ⟨[], 0⟩).1)).2
      = (impalaCall id (fun _ => "1\t2\n[p] > ") "select 1" (some "x, y") true
          ⟨[], 0⟩).2 :=
  identical_request_twice_one_execution id (fun _ => "1\t2\n[p] > ")
    "select 1" (some "x, y") ⟨[], 0⟩ rfl (by decide)

/-- C10: when the parser takes the raw-text fallback (some box-drawn
line of the stored file contains a comma), the backing cache entry is
left in place unmodified, and the returned text is the entire stored
file content read from the beginning — the prepended tab-separated
header line included — not just the transcript portion. -/
theorem rawText_fallback_keeps_entry_and_returns_whole_file
    (hash : String → String) (remote : String → String)
    (request columnText : String) (st : ImpalaState)
    (hfresh : alookup (hash request) st.cache = none)
    (hbox : ∃ l ∈ linesKeepEnds (writeContent (some columnText)
        (remote (stripNl request))),
      isBoxLine l = true ∧ strHasChar l ',' = true) :
    (impalaCall hash remote request (some columnText) true st).2
      = ReadRes.rawText (subCommaTab columnText ++ "\n" ++ remote (stripNl request))
    ∧ alookup (hash request)
        (impalaCall hash remote request (some columnText) true st).1.cache
      = some (writeContent (some columnText) (remote (stripNl request))) := by
  have hread : readCache (linesKeepEnds (writeContent (some columnText)
        (remote (stripNl request))))
      = ⟨ReadRes.rawText (writeContent (some columnText)
          (remote (stripNl request))), CacheAction.keep⟩ := by
    unfold readCache
    rw [scanLoop_box_comma _ hbox [] 0, strJoin_linesKeepEnds]
  have hcall : impalaCall hash remote request (some columnText) true st
      = ({ cache := ainsert (hash request)
              (writeContent (some columnText) (remote (stripNl request))) st.cache,
           execCount := st.execCount + 1 },
         ReadRes.rawText (writeContent (some columnText)
            (remote (stripNl request)))) := by
    unfold impalaCall
    simp [hfresh, alookup_ainsert, hread]
  rw [hcall]
  exact ⟨rfl, alookup_ainsert _ _ _⟩

/-- Witness for C10 at a concrete transcript holding a box-drawn line
with a comma. -/
theorem rawText_fallback_keeps_entry_witness :
    (impalaCall id (fun _ => "| name, type |\n[p] > ") "describe t"
        (some "x, y") true ⟨[], 0⟩).2
      = ReadRes.rawText (subCommaTab "x, y" ++ "\n" ++ "| name, type |\n[p] > ")
    ∧ alookup "describe t"
        (impalaCall id (fun _ => "| name, type |\n[p] > ") "describe t"
          (some "x, y") true ⟨[], 0⟩).1.cache
      = some (writeContent (some "x, y") "| name, type |\n[p] > ") := by
  have h := rawText_fallback_keeps_entry_and_returns_whole_file id
    (fun _ => "| name, type |\n[p] > ") "describe t" "x, y" ⟨[], 0⟩ rfl
    ⟨"| name, type |\n", by decide⟩
  exact h

/-- Duplicate removal only drops rows: every surviving row was in the
input. -/
theorem dedupGo_subset (l : List (List Cell)) :
    ∀ seen x, x ∈ dedupGo seen l → x ∈ l := by
  induction l with
  | nil => intro seen x hx; cases hx
  | cons r rs ih =>
    intro seen x hx
    by_cases hr : seen.contains r
    · simp only [dedupGo, hr, if_true] at hx
      exact List.mem_cons_of_mem r (ih seen x hx)
    · simp only [dedupGo, hr, Bool.false_eq_true, if_false] at hx
      rcases List.mem_cons.mp hx with rfl | hx2
      · exact List.mem_cons_self x rs
      · exact List.mem_cons_of_mem r (ih (r :: seen) x hx2)

/-- Every cell of a typed row is the positional parse of its column
name against some field value. -/
theorem mkRow_get (cols : List String) :
    ∀ fields (i : Nat) (hi : i < cols.length),
      ∃ v, (mkRow cols fields).get? i = some (parseCell (cols.get ⟨i, hi⟩) v) := by
  induction cols with
  | nil => intro fields i hi; cases hi
  | cons c cs ih =>
    intro fields i hi
    cases fields with
    | nil =>
      cases i with
      | zero => exact ⟨"", rfl⟩
      | succ j =>
        have hj : j < cs.length := Nat.lt_of_succ_lt_succ hi
        rcases ih [] j hj with ⟨v, hv⟩
        exact ⟨v, hv⟩
    | cons f fs =>
      cases i with
      | zero => exact ⟨f, rfl⟩
      | succ j =>
        have hj : j < cs.length := Nat.lt_of_succ_lt_succ hi
        rcases ih fs j hj with ⟨v, hv⟩
        exact ⟨v, hv⟩

/-- Inversion of the successful CSV parse: the output rows are exactly
the positional typing of the buffer's data rows against the header. -/
theorem readCsv_ok_shape (rows : List String) (cols : List String)
    (out : List (List Cell)) (h : readCsv rows = CsvResult.ok cols out) :
    ∃ dataRows : List String,
      out = dataRows.map (fun r => mkRow cols (splitComma r)) := by
  unfold readCsv at h
  cases rows with
  | nil => cases h
  | cons header dataRows =>
    simp only at h
    cases hbad : firstBadRow (splitComma header).length dataRows with
    | some p => rw [hbad] at h; obtain ⟨i, m⟩ := p; cases h
    | none =>
      rw [hbad] at h
      injection h with h1 h2
      subst h1
      exact ⟨dataRows, h2.symm⟩

/-- The raised-`ParserError` branch never produces a typed table. -/
theorem parserExceptBranch_no_table (e : CsvErr) (fileLines : List String)
    (cols : List String) (rows : List (List Cell)) (act : CacheAction) :
    parserExceptBranch e fileLines ≠ ⟨ReadRes.table cols rows, act⟩ := by
  intro h
  simp [parserExceptBranch, pyAdd] at h

/-- The error-banner scan never produces a typed table. -/
theorem errorScan_no_table (fileLines : List String)
    (cols : List String) (rows : List (List Cell)) (act : CacheAction) :
    errorScan fileLines ≠ ⟨ReadRes.table cols rows, act⟩ := by
  intro h
  unfold errorScan at h
  by_cases hb : fileLines.any (fun l => strStarts l "ERROR:") = true
  · rw [if_pos hb] at h; cases h
  · rw [if_neg hb] at h; cases h

/-- Inversion of `_read_cache` at a typed table: the rows come from the
deduplicated positional parse of the buffer against the header. -/
theorem readCache_table_shape (fileLines : List String) (cols : List String)
    (rows : List (List Cell)) (act : CacheAction)
    (h : readCache fileLines = ⟨ReadRes.table cols rows, act⟩) :
    ∃ dataRows : List String,
      rows = dedup (dataRows.map (fun r => mkRow cols (splitComma r))) := by
  unfold readCache at h
  cases hscan : scanLoop fileLines [] 0 with
  | none => rw [hscan] at h; cases h
  | some p =>
    rw [hscan] at h
    obtain ⟨chunks, count⟩ := p
    simp only at h
    by_cases hcount : count > 0
    · rw [if_pos hcount] at h
      cases hcsv : readCsv (csvRows chunks) with
      | emptyData => rw [hcsv] at h; cases h
      | parseErr e =>
        rw [hcsv] at h
        exact absurd h (parserExceptBranch_no_table e fileLines cols rows act)
      | ok cols2 rows2 =>
        rw [hcsv] at h
        simp only at h
        by_cases hlen : rows2.length > 0
        · rw [if_pos hlen] at h
          injection h with h1 h2
          injection h1 with h3 h4
          subst h3
          rcases readCsv_ok_shape (csvRows chunks) cols2 rows2 hcsv with ⟨dataRows, hshape⟩
          refine ⟨dataRows, ?_⟩
          rw [← h4, hshape]
        · rw [if_neg hlen] at h
          exact absurd h (errorScan_no_table fileLines cols rows act)
    · rw [if_neg hcount] at h
      exact absurd h (errorScan_no_table fileLines cols rows act)

/-- C8: in every transcript parsed into a typed table, every cell that
sits under the `icao24` or `callsign` column is text — never a sniffed
number; in particular the sniffer alone would turn `"1234e5"` into the
number 123400000, but under the forced dtype the identifier value
stays the literal text `"1234e5"`. -/
theorem identifier_columns_stay_text (fileLines : List String)
    (cols : List String) (rows : List (List Cell)) (act : CacheAction)
    (h : readCache fileLines = ⟨ReadRes.table cols rows, act⟩) :
    (∀ row ∈ rows, ∀ i : Nat, ∀ hi : i < cols.length,
      (cols.get ⟨i, hi⟩ = "icao24" ∨ cols.get ⟨i, hi⟩ = "callsign") →
      ∃ s, row.get? i = some (Cell.text s))
    ∧ sniffCell "1234e5" = Cell.intVal 123400000
    ∧ parseCell "icao24" "1234e5" = Cell.text "1234e5" := by
  refine ⟨?_, by decide, by decide⟩
  intro row hrow i hi hcol
  rcases readCache_table_shape fileLines cols rows act h with ⟨dataRows, hshape⟩
  subst hshape
  have hrow2 := dedupGo_subset _ [] row hrow
  rcases List.mem_map.mp hrow2 with ⟨r, _, hr⟩
  subst hr
  rcases mkRow_get cols (splitComma r) i hi with ⟨v, hv⟩
  refine ⟨v, ?_⟩
  rw [hv]
  rcases hcol with hc | hc <;> rw [hc] <;> rfl

/-- Witness for C8 at a concrete transcript carrying the identifier
value `"1234e5"`. -/
theorem identifier_columns_stay_text_witness :
    (∀ row ∈ [[Cell.text "1234e5", Cell.text "AFR01", Cell.text "48.5"]],
      ∀ i : Nat,
      ∀ hi : i < (["icao24", "callsign", "lat"] : List String).length,
      ((["icao24", "callsign", "lat"] : List String).get ⟨i, hi⟩ = "icao24"
        ∨ (["icao24", "callsign", "lat"] : List String).get ⟨i, hi⟩ = "callsign") →
      ∃ s, row.get? i = some (Cell.text s))
    ∧ sniffCell "1234e5" = Cell.intVal 123400000
    ∧ parseCell "icao24" "1234e5" = Cell.text "1234e5" :=
  identifier_columns_stay_text
    ["icao24\tcallsign\tlat\n", "1234e5\tAFR01\t48.5\n", "[hadoop-1:21000] > "]
    ["icao24", "callsign", "lat"]
    [[Cell.text "1234e5", Cell.text "AFR01", Cell.text "48.5"]]
    CacheAction.keep
    (by decide)

end PyOpenSky
